import Mathlib

/-!
Shallow embedding of the Fantasy Premier League dashboard
(src/fpl_dashboard.py) for verification of its specification.

A pandas cell is modelled by `Val`: integers, rationals (pandas floats are
modelled exactly by rationals), strings, booleans, and a missing value
(NaN/None/NaT are all `Val.null`).  A record is an association list of
column name and cell; a DataFrame is a column list plus a row list.
Column-wise pandas operations are modelled row-wise (each output row of
those operations depends only on the corresponding input row).
-/

namespace FPL

/-- A cell value of a table: integer, rational (exact model of a pandas
float), string, boolean, or the missing value (NaN / None / NaT). -/
inductive Val where
  | i (n : ℤ)
  | q (x : ℚ)
  | s (str : String)
  | b (t : Bool)
  | null
deriving DecidableEq, Repr

/-- A raw record / table row: an association list from column name to cell. -/
abbrev Row := List (String × Val)

/-- Cell of a row at a column: the first pair with that key, `Val.null` when
the key is absent (pandas yields NaN for a key a record lacks). -/
def rowGet : Row → String → Val
  | [], _ => Val.null
  | (k, v) :: r, c => if k = c then v else rowGet r c

/-- The keys of a row. -/
def rowKeys (r : Row) : List String := r.map Prod.fst

/-- Drop every pair whose key is listed (model of `DataFrame.drop(columns=...)`
applied to one row). -/
def dropKeys (ks : List String) (r : Row) : Row :=
  r.filter (fun p => ! ks.contains p.1)

/-- Rename key `a` to `b` in a row (model of `DataFrame.rename` on one row). -/
def renameKey (a b : String) (r : Row) : Row :=
  r.map (fun p => if p.1 = a then (b, p.2) else p)

/-- Apply `f` to the cell at key `k`, leaving other pairs alone (model of a
column assignment `df[k] = f(df[k])` on one row, for `k` already a column). -/
def mapKey (k : String) (f : Val → Val) (r : Row) : Row :=
  r.map (fun p => if p.1 = k then (p.1, f p.2) else p)

/-- Append a new column cell to a row (model of `df[k] = ...` for a fresh
column name `k`). -/
def addKey (k : String) (v : Val) (r : Row) : Row := r ++ [(k, v)]

/-- Lookup in an association list of cells, first match wins,
`Val.null` when no key matches. -/
def assocGet : List (Val × Val) → Val → Val
  | [], _ => Val.null
  | (k, v) :: r, x => if k = x then v else assocGet r x

/-- Python `dict` lookup built from a list of pairs: a later pair with the
same key overrides an earlier one, so lookup runs on the reversed list;
a missing key is the missing value (model of `Series.map(dict)`). -/
def dictGet (l : List (Val × Val)) (x : Val) : Val := assocGet l.reverse x

/-- Value of decimal digits. -/
def digitsToNat (cs : List Char) : ℕ :=
  cs.foldl (fun a c => a * 10 + (c.toNat - 48)) 0

/-- Surrounding-whitespace removal on a character list (the list-level
equivalent of `String.trim`). -/
def trimChars (cs : List Char) : List Char :=
  ((cs.dropWhile Char.isWhitespace).reverse.dropWhile Char.isWhitespace).reverse

/-- Model of the numeric parser behind `pd.to_numeric` on the plain decimal
subset: optional surrounding whitespace, an optional sign, then digits with
an optional fractional part.  Strings outside this subset (for instance
exponent notation, which no claim exercises) are conservatively rejected. -/
def parseDecimal (s : String) : Option ℚ :=
  let cs := trimChars s.data
  let sgn : ℚ := if cs.head? = some '-' then -1 else 1
  let cs := if cs.head? = some '-' ∨ cs.head? = some '+' then cs.drop 1 else cs
  let ip := cs.takeWhile Char.isDigit
  let rest := cs.dropWhile Char.isDigit
  match rest with
  | [] => if ip.isEmpty then none else some (sgn * (digitsToNat ip : ℚ))
  | '.' :: r =>
    let fp := r.takeWhile Char.isDigit
    let rest2 := r.dropWhile Char.isDigit
    if rest2.isEmpty then
      if ip.isEmpty ∧ fp.isEmpty then none
      else some (sgn * ((digitsToNat ip : ℚ) + (digitsToNat fp : ℚ) / (10 ^ fp.length)))
    else none
  | _ => none

/-- Model of `pd.to_numeric(col, errors=coerce)` on one cell: numbers stay
numbers, booleans become 0/1, a string becomes its parsed numeric value, and
anything unparseable becomes the missing value (never the number 0). -/
def toNumericCoerce : Val → Val
  | Val.i n => Val.i n
  | Val.q x => Val.q x
  | Val.b t => Val.i (if t then 1 else 0)
  | Val.null => Val.null
  | Val.s str =>
    match parseDecimal str with
    | some x => Val.q x
    | none => Val.null

/-- Division of a cell by a constant, as pandas column division: integers and
rationals divide into rationals, the missing value stays missing.  (A string
cell would raise in pandas; it is mapped to missing here and no claim
exercises it.) -/
def divVal (v : Val) (d : ℚ) : Val :=
  match v with
  | Val.i n => Val.q ((n : ℚ) / d)
  | Val.q x => Val.q (x / d)
  | Val.b t => Val.q ((if t then 1 else 0) / d)
  | _ => Val.null

/-- A DataFrame: ordered column names and the rows. -/
structure DataFrame where
  columns : List String
  rows : List Row
deriving Repr

/-- First-seen-order deduplication of a list of names. -/
def dedupStr (l : List String) : List String :=
  l.foldl (fun acc c => if acc.contains c then acc else acc ++ [c]) []

/-- Model of `pd.DataFrame(records)`: the columns are the union of the
record keys in first-seen order; the rows are the records themselves. -/
def DataFrame.ofRecords (rs : List Row) : DataFrame :=
  ⟨dedupStr (rs.flatMap rowKeys), rs⟩

/-- Model of `df[cols]`: raises a missing-column error when a requested
column is absent, otherwise projects every row to exactly those columns. -/
def DataFrame.select (df : DataFrame) (cs : List String) : Except String DataFrame :=
  if cs.all (fun c => df.columns.contains c) then
    Except.ok ⟨cs, df.rows.map (fun r => cs.map (fun c => (c, rowGet r c)))⟩
  else
    Except.error ("missing columns: " ++
      String.intercalate ", " (cs.filter (fun c => ! df.columns.contains c)))

/-- Model of `left.merge(right, left_on, right_on)`: the inner join, keeping
for each left row every right row whose join cell matches, concatenating the
two records.  A left row with no match is dropped. -/
def DataFrame.innerMerge (l r : DataFrame) (lOn rOn : String) : DataFrame :=
  ⟨l.columns ++ r.columns,
   l.rows.flatMap (fun lr =>
     (r.rows.filter (fun rr => decide (rowGet rr rOn = rowGet lr lOn))).map
       (fun rr => lr ++ rr))⟩

/-- Model of `df.drop(columns=ks)`. -/
def DataFrame.dropCols (df : DataFrame) (ks : List String) : DataFrame :=
  ⟨df.columns.filter (fun c => ! ks.contains c), df.rows.map (dropKeys ks)⟩

/-- Model of `df.rename` sending column a to b. -/
def DataFrame.renameCol (df : DataFrame) (a b : String) : DataFrame :=
  ⟨df.columns.map (fun c => if c = a then b else c), df.rows.map (renameKey a b)⟩

/-- Model of `df[k] = f(df[k])` for an existing column `k`. -/
def DataFrame.mapCol (df : DataFrame) (k : String) (f : Val → Val) : DataFrame :=
  ⟨df.columns, df.rows.map (mapKey k f)⟩

/-- Model of `df[k] = g(df)` for a fresh column `k` whose cell in each row is
computed from that row. -/
def DataFrame.addCol (df : DataFrame) (k : String) (f : Row → Val) : DataFrame :=
  ⟨df.columns ++ [k], df.rows.map (fun r => addKey k (f r) r)⟩

/-- The values of one column, in row order (model of `df[c]` read as a
Series). -/
def colVals (df : DataFrame) (c : String) : List Val :=
  df.rows.map (fun r => rowGet r c)

/-- The raw bootstrap payload: the parsed JSON object, with the three
top-level arrays the dashboard reads; a `none` field models an absent key
(in particular the empty object returned by the fetcher on error has all
three absent). -/
structure Payload where
  elements : Option (List Row)
  teams : Option (List Row)
  element_types : Option (List Row)

/-- The empty JSON object, as returned by `fetch_fpl_data` on a transport
error. -/
def emptyPayload : Payload := ⟨none, none, none⟩

/-- Python subscripting `data[k]` on the payload: the value when the key is
present, a KeyError otherwise. -/
def keyGet : Option (List Row) → String → Except String (List Row)
  | some rs, _ => Except.ok rs
  | none, k => Except.error ("KeyError: " ++ k)

/-- The outcome of the HTTP GET inside `fetch_fpl_data`: either a parsed
payload or a transport/HTTP failure with its message. -/
inductive FetchOutcome where
  | success (d : Payload)
  | failure (msg : String)

/-- Model of `fetch_fpl_data` as a function of the transport outcome: the
parsed body on success, and after surfacing the error, the empty object on
any `requests.RequestException`. -/
def fetch_fpl_data : FetchOutcome → Payload
  | FetchOutcome.success d => d
  | FetchOutcome.failure _ => emptyPayload

/-- The fixed allow-list of player columns selected by `prepare_data`. -/
def selectedCols : List String :=
  ["first_name", "second_name", "team", "total_points", "goals_scored",
   "assists", "clean_sheets", "now_cost", "minutes", "yellow_cards",
   "red_cards", "form", "bonus", "event_points", "selected_by_percent",
   "influence", "creativity", "threat", "expected_goals", "expected_assists",
   "expected_goals_conceded", "saves", "element_type"]

/-- Model of `prepare_data(data)`: builds the players and teams tables.
Mirrors the source line by line: build the three DataFrames, select the
player columns, inner-merge with `teams[[id, name]]` on `team = id`, drop
the join keys, rename `name` to `team`, `now_cost` to `Price`, `minutes`
to `Hours`, divide Hours by 60 and Price by 10, coerce
`selected_by_percent` to numeric and rename it `Ownership`, then map
`element_type` through the id-to-singular_name dictionary into a new
`position` column. -/
def prepare_data (d : Payload) : Except String (DataFrame × DataFrame) := do
  let elems ← keyGet d.elements "elements"
  let teamRecs ← keyGet d.teams "teams"
  let etRecs ← keyGet d.element_types "element_types"
  let teams := DataFrame.ofRecords teamRecs
  let element_types := DataFrame.ofRecords etRecs
  let p0 := DataFrame.ofRecords elems
  let p1 ← p0.select selectedCols
  let tSel ← teams.select ["id", "name"]
  let p2 := p1.innerMerge tSel "team" "id"
  let p3 := p2.dropCols ["id", "team"]
  let p4 := p3.renameCol "name" "team"
  let p5 := p4.renameCol "now_cost" "Price"
  let p6 := p5.renameCol "minutes" "Hours"
  let p7 := p6.mapCol "Hours" (fun v => divVal v 60)
  let p8 := p7.mapCol "Price" (fun v => divVal v 10)
  let p9 := p8.mapCol "selected_by_percent" toNumericCoerce
  let p10 := p9.renameCol "selected_by_percent" "Ownership"
  let etm := (colVals element_types "id").zip (colVals element_types "singular_name")
  let p11 := p10.addCol "position" (fun r => dictGet etm (rowGet r "element_type"))
  Except.ok (p11, teams)

/-- Projection of a raw player record to the selected columns, as
`DataFrame.select` performs it on one row. -/
def playerProj (pr : Row) : Row := selectedCols.map (fun c => (c, rowGet pr c))

/-- Projection of a raw team record to `[id, name]`, as
`teams[[id, name]]` performs it on one row. -/
def teamProj (tr : Row) : Row := [("id", rowGet tr "id"), ("name", rowGet tr "name")]

/-- The dictionary `dict(zip(element_types[id], element_types[singular_name]))`. -/
def etDict (etRecs : List Row) : List (Val × Val) :=
  etRecs.map (fun r => (rowGet r "id", rowGet r "singular_name"))

/-- The per-row tail of the `prepare_data` pipeline, applied to a merged
row: drop the join keys, the three renames, the two divisions, the
ownership coercion and rename, then the position lookup. -/
def rowPipeline (etm : List (Val × Val)) (m : Row) : Row :=
  let r3 := dropKeys ["id", "team"] m
  let r4 := renameKey "name" "team" r3
  let r5 := renameKey "now_cost" "Price" r4
  let r6 := renameKey "minutes" "Hours" r5
  let r7 := mapKey "Hours" (fun v => divVal v 60) r6
  let r8 := mapKey "Price" (fun v => divVal v 10) r7
  let r9 := mapKey "selected_by_percent" toNumericCoerce r8
  let r10 := renameKey "selected_by_percent" "Ownership" r9
  addKey "position" (dictGet etm (rowGet r10 "element_type")) r10

/-- The built player row `prepare_data` produces from a raw player record
and the raw team record it joined with. -/
def buildRow (etm : List (Val × Val)) (pr tr : Row) : Row :=
  rowPipeline etm (playerProj pr ++ teamProj tr)

theorem rowGet_teamProj_id (tr : Row) : rowGet (teamProj tr) "id" = rowGet tr "id" := rfl

theorem rowGet_playerProj_team (pr : Row) :
    rowGet (playerProj pr) "team" = rowGet pr "team" := rfl

/-- The rows `prepare_data` builds, in closed form: one built row for every
raw player record and every raw team record whose `id` matches the `team`
field of the player record, fed through the per-row pipeline; the returned teams table is the
raw teams DataFrame. -/
theorem prepare_data_rows (d : Payload) (elems teamRecs etRecs : List Row)
    (he : d.elements = some elems) (ht : d.teams = some teamRecs)
    (hq : d.element_types = some etRecs)
    (hsel : selectedCols.all
      (fun c => (DataFrame.ofRecords elems).columns.contains c) = true)
    (htsel : (["id", "name"].all
      (fun c => (DataFrame.ofRecords teamRecs).columns.contains c)) = true) :
    (prepare_data d).map (fun pt => (pt.1.rows, pt.2)) = Except.ok
      (elems.flatMap (fun pr =>
          (teamRecs.filter
            (fun tr => decide (rowGet tr "id" = rowGet pr "team"))).map
            (fun tr => buildRow (etDict etRecs) pr tr)),
       DataFrame.ofRecords teamRecs) := by
  simp only [DataFrame.ofRecords] at hsel htsel
  simp only [prepare_data, keyGet, he, ht, hq, DataFrame.select,
    DataFrame.ofRecords, hsel, htsel, if_true, DataFrame.innerMerge,
    DataFrame.dropCols, DataFrame.renameCol, DataFrame.mapCol,
    DataFrame.addCol, colVals, Except.bind, bind, pure, Except.map,
    Except.ok.injEq, Prod.mk.injEq]
  refine ⟨?_, trivial⟩
  simp only [List.map_flatMap, List.flatMap_map, List.map_map, List.filter_map,
    List.zip_map']
  rfl

/-- The built player row written out: the selected player cells in order,
with the join keys gone, the price and minutes divided, the ownership
coerced, the joined team name under `team`, and the looked-up position. -/
theorem buildRow_eq (etm : List (Val × Val)) (pr tr : Row) :
    buildRow etm pr tr =
      [("first_name", rowGet pr "first_name"),
       ("second_name", rowGet pr "second_name"),
       ("total_points", rowGet pr "total_points"),
       ("goals_scored", rowGet pr "goals_scored"),
       ("assists", rowGet pr "assists"),
       ("clean_sheets", rowGet pr "clean_sheets"),
       ("Price", divVal (rowGet pr "now_cost") 10),
       ("Hours", divVal (rowGet pr "minutes") 60),
       ("yellow_cards", rowGet pr "yellow_cards"),
       ("red_cards", rowGet pr "red_cards"),
       ("form", rowGet pr "form"),
       ("bonus", rowGet pr "bonus"),
       ("event_points", rowGet pr "event_points"),
       ("Ownership", toNumericCoerce (rowGet pr "selected_by_percent")),
       ("influence", rowGet pr "influence"),
       ("creativity", rowGet pr "creativity"),
       ("threat", rowGet pr "threat"),
       ("expected_goals", rowGet pr "expected_goals"),
       ("expected_assists", rowGet pr "expected_assists"),
       ("expected_goals_conceded", rowGet pr "expected_goals_conceded"),
       ("saves", rowGet pr "saves"),
       ("element_type", rowGet pr "element_type"),
       ("team", rowGet tr "name"),
       ("position", dictGet etm (rowGet pr "element_type"))] := by
  simp [buildRow, rowPipeline, playerProj, teamProj, selectedCols, dropKeys,
    renameKey, mapKey, addKey, rowGet]

theorem buildRow_team (etm : List (Val × Val)) (pr tr : Row) :
    rowGet (buildRow etm pr tr) "team" = rowGet tr "name" := by
  simp [buildRow_eq, rowGet]

theorem buildRow_Price (etm : List (Val × Val)) (pr tr : Row) :
    rowGet (buildRow etm pr tr) "Price" = divVal (rowGet pr "now_cost") 10 := by
  simp [buildRow_eq, rowGet]

theorem buildRow_Hours (etm : List (Val × Val)) (pr tr : Row) :
    rowGet (buildRow etm pr tr) "Hours" = divVal (rowGet pr "minutes") 60 := by
  simp [buildRow_eq, rowGet]

theorem buildRow_Ownership (etm : List (Val × Val)) (pr tr : Row) :
    rowGet (buildRow etm pr tr) "Ownership"
      = toNumericCoerce (rowGet pr "selected_by_percent") := by
  simp [buildRow_eq, rowGet]

theorem buildRow_position (etm : List (Val × Val)) (pr tr : Row) :
    rowGet (buildRow etm pr tr) "position"
      = dictGet etm (rowGet pr "element_type") := by
  simp [buildRow_eq, rowGet]

theorem buildRow_total_points (etm : List (Val × Val)) (pr tr : Row) :
    rowGet (buildRow etm pr tr) "total_points" = rowGet pr "total_points" := by
  simp [buildRow_eq, rowGet]

/-- When `prepare_data` succeeds, both column selections succeeded: every
selected player column and both team join columns were present. -/
theorem prepare_data_ok_all (d : Payload) (elems teamRecs etRecs : List Row)
    (pt : DataFrame × DataFrame)
    (he : d.elements = some elems) (ht : d.teams = some teamRecs)
    (hq : d.element_types = some etRecs)
    (hok : prepare_data d = Except.ok pt) :
    (selectedCols.all
      (fun c => (DataFrame.ofRecords elems).columns.contains c) = true)
    ∧ (["id", "name"].all
      (fun c => (DataFrame.ofRecords teamRecs).columns.contains c) = true) := by
  cases hsel : selectedCols.all
      (fun c => (DataFrame.ofRecords elems).columns.contains c) with
  | false =>
    exfalso
    simp only [prepare_data, keyGet, he, ht, hq, DataFrame.select, hsel,
      Except.bind, bind] at hok
    simp at hok
  | true =>
    cases htsel : (["id", "name"].all
        (fun c => (DataFrame.ofRecords teamRecs).columns.contains c)) with
    | false =>
      exfalso
      simp only [prepare_data, keyGet, he, ht, hq, DataFrame.select, hsel,
        htsel, Except.bind, bind] at hok
      simp at hok
    | true => exact ⟨rfl, rfl⟩

/-- Raw team record of the worked example: id 1, name Arsenal. -/
def exampleTeamRow : Row := [("id", Val.i 1), ("name", Val.s "Arsenal")]

/-- Raw player record of the worked example: team 1, total_points 50, every
selected column present. -/
def examplePlayerRow : Row :=
  [("first_name", Val.s "Bukayo"), ("second_name", Val.s "Saka"),
   ("team", Val.i 1), ("total_points", Val.i 50), ("goals_scored", Val.i 5),
   ("assists", Val.i 7), ("clean_sheets", Val.i 3), ("now_cost", Val.i 100),
   ("minutes", Val.i 900), ("yellow_cards", Val.i 1), ("red_cards", Val.i 0),
   ("form", Val.s "5.5"), ("bonus", Val.i 10), ("event_points", Val.i 2),
   ("selected_by_percent", Val.s "45.3"), ("influence", Val.s "500.2"),
   ("creativity", Val.s "300.0"), ("threat", Val.s "400.1"),
   ("expected_goals", Val.s "4.5"), ("expected_assists", Val.s "5.1"),
   ("expected_goals_conceded", Val.s "10.0"), ("saves", Val.i 0),
   ("element_type", Val.i 3)]

/-- Element-type record of the worked example. -/
def exampleEtRow : Row := [("id", Val.i 3), ("singular_name", Val.s "Midfielder")]

/-- The worked example payload: one team (Arsenal, id 1), one player on
team 1 with 50 total points. -/
def examplePayload : Payload :=
  ⟨some [examplePlayerRow], some [exampleTeamRow], some [exampleEtRow]⟩

/-- C1: for every payload `prepare_data` accepts, the team name of every
built player row is the name of a team row of the returned teams table (the merge
is an inner join on the numeric id, so orphaned players are dropped); and
on the worked example the single built row has team "Arsenal" and
total_points 50. -/
theorem claim1_join_totality :
    (∀ (d : Payload) (elems teamRecs etRecs : List Row) (p t : DataFrame),
      d.elements = some elems → d.teams = some teamRecs →
      d.element_types = some etRecs →
      prepare_data d = Except.ok (p, t) →
      ∀ r ∈ p.rows, ∃ tr ∈ t.rows, rowGet r "team" = rowGet tr "name")
    ∧ (prepare_data examplePayload).map
        (fun pt => pt.1.rows.map
          (fun r => (rowGet r "team", rowGet r "total_points")))
        = Except.ok [(Val.s "Arsenal", Val.i 50)] := by
  constructor
  · intro d elems teamRecs etRecs p t he ht hq hok
    obtain ⟨hsel, htsel⟩ := prepare_data_ok_all d elems teamRecs etRecs _ he ht hq hok
    have hrows := prepare_data_rows d elems teamRecs etRecs he ht hq hsel htsel
    rw [hok] at hrows
    simp only [Except.map, Except.ok.injEq, Prod.mk.injEq] at hrows
    obtain ⟨hp, ht2⟩ := hrows
    intro r hr
    rw [hp] at hr
    rw [List.mem_flatMap] at hr
    obtain ⟨pr, hpr, hr⟩ := hr
    rw [List.mem_map] at hr
    obtain ⟨tr, htr, hr⟩ := hr
    rw [List.mem_filter] at htr
    refine ⟨tr, ?_, ?_⟩
    · rw [ht2]
      exact htr.1
    · rw [← hr]
      exact buildRow_team _ _ _
  · rfl

/-- Every row of the built player table comes from a raw player record and
a matching raw team record through `buildRow`. -/
theorem prepare_data_mem (d : Payload) (elems teamRecs etRecs : List Row)
    (p t : DataFrame)
    (he : d.elements = some elems) (ht : d.teams = some teamRecs)
    (hq : d.element_types = some etRecs)
    (hok : prepare_data d = Except.ok (p, t)) :
    ∀ r ∈ p.rows, ∃ pr ∈ elems, ∃ tr ∈ teamRecs,
      rowGet tr "id" = rowGet pr "team" ∧ r = buildRow (etDict etRecs) pr tr := by
  obtain ⟨hsel, htsel⟩ := prepare_data_ok_all d elems teamRecs etRecs _ he ht hq hok
  have hrows := prepare_data_rows d elems teamRecs etRecs he ht hq hsel htsel
  rw [hok] at hrows
  simp only [Except.map, Except.ok.injEq, Prod.mk.injEq] at hrows
  intro r hr
  rw [hrows.1] at hr
  rw [List.mem_flatMap] at hr
  obtain ⟨pr, hpr, hr⟩ := hr
  rw [List.mem_map] at hr
  obtain ⟨tr, htr, hr⟩ := hr
  rw [List.mem_filter] at htr
  exact ⟨pr, hpr, tr, htr.1, of_decide_eq_true htr.2, hr.symm⟩

/-- C3 (code bug in the source): on a transport/HTTP failure the fetcher
does return the empty object, but `prepare_data` applied to that empty
object raises a KeyError on `elements` instead of producing empty tables:
execution does not continue with empty tables. -/
theorem claim3_fetch_error_empty_then_prepare_raises :
    fetch_fpl_data (FetchOutcome.failure "connection refused") = emptyPayload
    ∧ prepare_data emptyPayload = Except.error "KeyError: elements" :=
  ⟨rfl, rfl⟩

/-- Player record of the unparseable-ownership example: identical to the
worked example except that `selected_by_percent` is the non-numeric string
`N/A`. -/
def badOwnPlayerRow : Row :=
  examplePlayerRow.map
    (fun p => if p.1 = "selected_by_percent" then (p.1, Val.s "N/A") else p)

/-- C4: in every built player table, the `Ownership` cell of each row is
exactly the coercion of the raw `selected_by_percent` text, so a value
whose text does not parse as a number becomes the missing value — which is
distinct from the number 0; and on a concrete payload whose ownership text
is `N/A` the built cell is missing. -/
theorem claim4_ownership_unparseable_missing :
    (∀ (d : Payload) (elems teamRecs etRecs : List Row) (p t : DataFrame),
      d.elements = some elems → d.teams = some teamRecs →
      d.element_types = some etRecs →
      prepare_data d = Except.ok (p, t) →
      ∀ r ∈ p.rows, ∃ pr ∈ elems,
        rowGet r "Ownership" = toNumericCoerce (rowGet pr "selected_by_percent")
        ∧ ∀ str : String, rowGet pr "selected_by_percent" = Val.s str →
            parseDecimal str = none → rowGet r "Ownership" = Val.null)
    ∧ Val.null ≠ Val.q 0
    ∧ (prepare_data
        ⟨some [badOwnPlayerRow], some [exampleTeamRow], some [exampleEtRow]⟩).map
        (fun pt => pt.1.rows.map (fun r => rowGet r "Ownership"))
        = Except.ok [Val.null] := by
  refine ⟨?_, by decide, rfl⟩
  intro d elems teamRecs etRecs p t he ht hq hok r hr
  obtain ⟨pr, hpr, tr, htr, hmatch, hbuild⟩ :=
    prepare_data_mem d elems teamRecs etRecs p t he ht hq hok r hr
  refine ⟨pr, hpr, ?_, ?_⟩
  · rw [hbuild]
    exact buildRow_Ownership _ _ _
  · intro str hs hparse
    rw [hbuild, buildRow_Ownership, hs]
    simp [toNumericCoerce, hparse]

/-- C5: in every built player table, the `Price` cell of each row is the raw
`now_cost` divided by 10 and its `Hours` cell is the raw `minutes` divided
by 60 — each conversion applied exactly once to the raw value; on the
worked example (now_cost 100, minutes 900) the built cells are 10 and 15. -/
theorem claim5_price_hours_single_division :
    (∀ (d : Payload) (elems teamRecs etRecs : List Row) (p t : DataFrame),
      d.elements = some elems → d.teams = some teamRecs →
      d.element_types = some etRecs →
      prepare_data d = Except.ok (p, t) →
      ∀ r ∈ p.rows, ∃ pr ∈ elems,
        rowGet r "Price" = divVal (rowGet pr "now_cost") 10
        ∧ rowGet r "Hours" = divVal (rowGet pr "minutes") 60
        ∧ (∀ n : ℤ, rowGet pr "now_cost" = Val.i n →
            rowGet r "Price" = Val.q ((n : ℚ) / 10))
        ∧ (∀ m : ℤ, rowGet pr "minutes" = Val.i m →
            rowGet r "Hours" = Val.q ((m : ℚ) / 60)))
    ∧ (prepare_data examplePayload).map
        (fun pt => pt.1.rows.map (fun r => (rowGet r "Price", rowGet r "Hours")))
        = Except.ok [(Val.q 10, Val.q 15)] := by
  constructor
  · intro d elems teamRecs etRecs p t he ht hq hok r hr
    obtain ⟨pr, hpr, tr, htr, hmatch, hbuild⟩ :=
      prepare_data_mem d elems teamRecs etRecs p t he ht hq hok r hr
    subst hbuild
    refine ⟨pr, hpr, buildRow_Price _ _ _, buildRow_Hours _ _ _, ?_, ?_⟩
    · intro n hn
      rw [buildRow_Price, hn]
      rfl
    · intro m hm
      rw [buildRow_Hours, hm]
      rfl
  · have h1 : ((100 : ℤ) : ℚ) / 10 = 10 := by norm_num
    have h2 : ((900 : ℤ) : ℚ) / 60 = 15 := by norm_num
    have base : (prepare_data examplePayload).map
        (fun pt => pt.1.rows.map (fun r => (rowGet r "Price", rowGet r "Hours")))
        = Except.ok [(Val.q (((100 : ℤ) : ℚ) / 10),
            Val.q (((900 : ℤ) : ℚ) / 60))] := rfl
    rw [base, h1, h2]

/-- Player record of the missing-column example: the worked example with
the `minutes` column removed. -/
def noMinutesPlayerRow : Row :=
  examplePlayerRow.filter (fun p => decide (p.1 ≠ "minutes"))

/-- C7: `prepare_data` selects the fixed allow-list `selectedCols`; when a
players data of a payload lacks one of the selected fields, the build fails
with an observable missing-column error rather than proceeding without the
field; concretely, dropping `minutes` yields the error naming it. -/
theorem claim7_missing_column_error :
    (∀ (d : Payload) (elems teamRecs etRecs : List Row) (c : String),
      d.elements = some elems → d.teams = some teamRecs →
      d.element_types = some etRecs →
      c ∈ selectedCols → c ∉ (DataFrame.ofRecords elems).columns →
      ∃ msg, prepare_data d = Except.error msg)
    ∧ prepare_data
        ⟨some [noMinutesPlayerRow], some [exampleTeamRow], some [exampleEtRow]⟩
        = Except.error "missing columns: minutes" := by
  constructor
  · intro d elems teamRecs etRecs c he ht hq hcsel hcabs
    have hall : selectedCols.all
        (fun c => (DataFrame.ofRecords elems).columns.contains c) = false := by
      cases hv : selectedCols.all
          (fun c => (DataFrame.ofRecords elems).columns.contains c) with
      | false => rfl
      | true =>
        exfalso
        rw [List.all_eq_true] at hv
        exact hcabs (by simpa using hv c hcsel)
    refine ⟨"missing columns: " ++ String.intercalate ", "
      (selectedCols.filter
        (fun c => ! (DataFrame.ofRecords elems).columns.contains c)), ?_⟩
    simp only [prepare_data, keyGet, he, ht, hq, DataFrame.select, hall,
      Except.bind, bind]
    simp
  · rfl

/-- Payload whose single element-type record does not cover the
`element_type` code of the player (the player has code 3, the lookup only
id 9). -/
def unmappedEtPayload : Payload :=
  ⟨some [examplePlayerRow], some [exampleTeamRow],
   some [[("id", Val.i 9), ("singular_name", Val.s "Manager")]]⟩

theorem assocGet_eq_null (l : List (Val × Val)) (x : Val)
    (h : ∀ p ∈ l, p.1 ≠ x) : assocGet l x = Val.null := by
  induction l with
  | nil => rfl
  | cons hd tl ih =>
    simp only [assocGet]
    rw [if_neg (h hd (List.mem_cons_self hd tl))]
    exact ih (fun p hp => h p (List.mem_cons_of_mem hd hp))

theorem dictGet_eq_null (l : List (Val × Val)) (x : Val)
    (h : ∀ p ∈ l, p.1 ≠ x) : dictGet l x = Val.null :=
  assocGet_eq_null _ _ (fun p hp => h p (List.mem_reverse.mp hp))

/-- C10: a player whose `element_type` code has no entry in the
element-type lookup is still kept: for any accepted payload, each matching
player/team pair contributes its built row to the table, and when no
element-type record carries the code of the player, the `position` cell is
the missing value — the build still succeeds (no row dropped, no error);
concretely, a payload whose only element-type id is 9 keeps the code-3
player with a missing position. -/
theorem claim10_unmapped_position_kept :
    (∀ (d : Payload) (elems teamRecs etRecs : List Row) (p t : DataFrame)
       (pr tr : Row),
      d.elements = some elems → d.teams = some teamRecs →
      d.element_types = some etRecs →
      prepare_data d = Except.ok (p, t) →
      pr ∈ elems → tr ∈ teamRecs → rowGet tr "id" = rowGet pr "team" →
      buildRow (etDict etRecs) pr tr ∈ p.rows
      ∧ ((∀ q ∈ etRecs, rowGet q "id" ≠ rowGet pr "element_type") →
          rowGet (buildRow (etDict etRecs) pr tr) "position" = Val.null))
    ∧ (prepare_data unmappedEtPayload).map
        (fun pt => pt.1.rows.map
          (fun r => (rowGet r "second_name", rowGet r "position")))
        = Except.ok [(Val.s "Saka", Val.null)] := by
  constructor
  · intro d elems teamRecs etRecs p t pr tr he ht hq hok hpr htr hmatch
    obtain ⟨hsel, htsel⟩ := prepare_data_ok_all d elems teamRecs etRecs _ he ht hq hok
    have hrows := prepare_data_rows d elems teamRecs etRecs he ht hq hsel htsel
    rw [hok] at hrows
    simp only [Except.map, Except.ok.injEq, Prod.mk.injEq] at hrows
    constructor
    · rw [hrows.1]
      rw [List.mem_flatMap]
      refine ⟨pr, hpr, ?_⟩
      rw [List.mem_map]
      refine ⟨tr, ?_, rfl⟩
      rw [List.mem_filter]
      exact ⟨htr, decide_eq_true hmatch⟩
    · intro hnone
      rw [buildRow_position]
      refine dictGet_eq_null _ _ ?_
      intro q hq2
      simp only [etDict, List.mem_map] at hq2
      obtain ⟨rec, hrec, hrec2⟩ := hq2
      rw [← hrec2]
      exact hnone rec hrec
  · rfl

/-- Helper of `uniqueVals`: keep each value not seen before, first-seen
order, carrying the set of values already emitted. -/
def uniqueAux (seen : List Val) : List Val → List Val
  | [] => []
  | v :: vs =>
    if v ∈ seen then uniqueAux seen vs else v :: uniqueAux (v :: seen) vs

/-- Model of `pandas.Series.unique`: the distinct values, in first-seen
order. -/
def uniqueVals (l : List Val) : List Val := uniqueAux [] l

/-- Model of the dictionary comprehension
`(team, palette[i mod len]) for i, team in enumerate(teams)`, unrolled with
the running index made explicit.  An out-of-range palette index yields the
empty string; the dashboard only reaches in-range indices because the
index is always reduced modulo the palette length. -/
def assignFrom (palette : List String) : ℕ → List Val → List (Val × String)
  | _, [] => []
  | i, t :: ts =>
    (t, palette.getD (i % palette.length) "") :: assignFrom palette (i + 1) ts

/-- Model of `get_team_colors(players, color_palette)`: each distinct team
name of the team column of the players table, in first-seen order, paired with
the palette entry at its index modulo the palette length. -/
def get_team_colors (players : DataFrame) (color_palette : List String) :
    List (Val × String) :=
  assignFrom color_palette 0 (uniqueVals (colVals players "team"))

theorem uniqueAux_mem (l : List Val) : ∀ (seen : List Val) (w : Val),
    w ∈ uniqueAux seen l → w ∈ l ∧ w ∉ seen := by
  induction l with
  | nil => intro seen w hw; exact absurd hw (by simp [uniqueAux])
  | cons v vs ih =>
    intro seen w hw
    rw [uniqueAux] at hw
    by_cases hv : v ∈ seen
    · rw [if_pos hv] at hw
      obtain ⟨h1, h2⟩ := ih seen w hw
      exact ⟨List.mem_cons_of_mem _ h1, h2⟩
    · rw [if_neg hv] at hw
      rcases List.mem_cons.mp hw with h | h
      · exact ⟨h ▸ List.mem_cons_self _ _, h ▸ hv⟩
      · obtain ⟨h1, h2⟩ := ih (v :: seen) w h
        exact ⟨List.mem_cons_of_mem _ h1,
          fun hs => h2 (List.mem_cons_of_mem _ hs)⟩

theorem uniqueAux_nodup (l : List Val) : ∀ seen : List Val,
    (uniqueAux seen l).Nodup := by
  induction l with
  | nil => intro seen; simp [uniqueAux]
  | cons v vs ih =>
    intro seen
    rw [uniqueAux]
    by_cases hv : v ∈ seen
    · rw [if_pos hv]; exact ih seen
    · rw [if_neg hv]
      refine List.nodup_cons.mpr ⟨?_, ih (v :: seen)⟩
      intro hmem
      exact (uniqueAux_mem vs (v :: seen) v hmem).2 (List.mem_cons_self _ _)

theorem uniqueVals_nodup (l : List Val) : (uniqueVals l).Nodup :=
  uniqueAux_nodup l []

theorem lookup_assignFrom (palette : List String) (l : List Val)
    (hl : l.Nodup) : ∀ (i0 j : ℕ) (h : j < l.length),
    List.lookup (l.get ⟨j, h⟩) (assignFrom palette i0 l)
      = some (palette.getD ((i0 + j) % palette.length) "") := by
  induction l with
  | nil => intro i0 j h; exact absurd h (by simp)
  | cons v vs ih =>
    intro i0 j h
    match j with
    | 0 => simp [assignFrom, List.lookup]
    | j + 1 =>
      have hget : (v :: vs).get ⟨j + 1, h⟩ = vs.get ⟨j, Nat.lt_of_succ_lt_succ h⟩ := rfl
      have hne : (v :: vs).get ⟨j + 1, h⟩ ≠ v := by
        rw [hget]
        intro heq
        exact (List.nodup_cons.mp hl).1
          (heq ▸ vs.get_mem j (Nat.lt_of_succ_lt_succ h))
      have hbe : (((v :: vs).get ⟨j + 1, h⟩) == v) = false := by
        simpa using hne
      rw [assignFrom, List.lookup, hbe, hget]
      have := ih (List.nodup_cons.mp hl).2 (i0 + 1) j (Nat.lt_of_succ_lt_succ h)
      have harith : i0 + 1 + j = i0 + (j + 1) := by omega
      rw [this, harith]

/-- C2: `get_team_colors` sends the j-th distinct team name (first-seen
order of the team column) to the palette entry at index j modulo the
palette length; it is a pure function (equal inputs give equal mappings);
and on distinct teams A, B, C (first seen in that order, A repeated) with
palette [red, blue] it yields A to red, B to blue, C to red. -/
theorem claim2_palette_mapping :
    (∀ (players : DataFrame) (palette : List String) (j : ℕ)
       (h : j < (uniqueVals (colVals players "team")).length),
      palette ≠ [] →
      List.lookup ((uniqueVals (colVals players "team")).get ⟨j, h⟩)
          (get_team_colors players palette)
        = some (palette.getD (j % palette.length) ""))
    ∧ (∀ (p1 p2 : DataFrame) (pal1 pal2 : List String),
        p1 = p2 → pal1 = pal2 →
        get_team_colors p1 pal1 = get_team_colors p2 pal2)
    ∧ get_team_colors
        ⟨["team"], [[("team", Val.s "A")], [("team", Val.s "B")],
          [("team", Val.s "A")], [("team", Val.s "C")]]⟩ ["red", "blue"]
        = [(Val.s "A", "red"), (Val.s "B", "blue"), (Val.s "C", "red")] := by
  refine ⟨?_, ?_, rfl⟩
  · intro players palette j h _
    have := lookup_assignFrom palette (uniqueVals (colVals players "team"))
      (uniqueVals_nodup _) 0 j h
    rw [Nat.zero_add] at this
    rw [get_team_colors]
    exact this
  · intro p1 p2 pal1 pal2 h1 h2
    rw [h1, h2]

/-- Lower-casing of a character list (case-insensitive matching is modelled
by lowering both pattern and subject). -/
def lowerChars (cs : List Char) : List Char := cs.map Char.toLower

/-- The regular-expression metacharacters of the Python `re` module. -/
def isMeta (c : Char) : Bool :=
  c = '.' || c = '^' || c = '$' || c = '*' || c = '+' || c = '?' ||
  c = '\x7b' || c = '\x7d' || c = '[' || c = ']' || c = '\\' || c = '|' ||
  c = '(' || c = ')'

/-- A compiled pattern atom: a literal character, or dot (any character). -/
inductive RAtom where
  | lit (c : Char)
  | dot
deriving DecidableEq, Repr

/-- Pattern compiler modelled on `re.compile` over the fragment the search
pages exercise: a literal character matches itself, and dot matches any
character.  A pattern using any other metacharacter is modelled as a
compilation error — Python itself rejects some of those (an unbalanced
parenthesis raises `re.error`), and no claim quantifies over the rest of
the regex language. -/
def parsePattern : List Char → Except String (List RAtom)
  | [] => Except.ok []
  | c :: cs =>
    if c = '.' then (parsePattern cs).map (fun r => RAtom.dot :: r)
    else if isMeta c then Except.error "unsupported metacharacter in pattern"
    else (parsePattern cs).map (fun r => RAtom.lit c :: r)

/-- The compiled pattern matches a prefix of the subject. -/
def matchHere : List RAtom → List Char → Bool
  | [], _ => true
  | _ :: _, [] => false
  | RAtom.lit c :: ps, x :: xs => decide (x = c) && matchHere ps xs
  | RAtom.dot :: ps, _ :: xs => matchHere ps xs

/-- Model of `re.search`: the compiled pattern matches at some position of
the subject. -/
def regexSearch (p : List RAtom) : List Char → Bool
  | [] => matchHere p []
  | x :: xs => matchHere p (x :: xs) || regexSearch p xs

/-- The query is a prefix of the subject, character for character (the
specification-side notion, for comparison with the compiled pattern). -/
def prefixHere : List Char → List Char → Bool
  | [], _ => true
  | _ :: _, [] => false
  | c :: cs, x :: xs => decide (x = c) && prefixHere cs xs

/-- The query occurs as a contiguous substring of the subject (the
specification-side notion of substring search). -/
def subMatch (q : List Char) : List Char → Bool
  | [] => prefixHere q []
  | x :: xs => prefixHere q (x :: xs) || subMatch q xs

/-- Case-insensitive substring containment of `q` in `n` — the
reading the specification gives of the search pages. -/
def ciSubstr (q n : String) : Bool :=
  subMatch (lowerChars q.data) (lowerChars n.data)

/-- What a search page renders: a results table, or a plain message. -/
inductive RenderOut where
  | table (rows : List Row)
  | msg (text : String)
deriving DecidableEq, Repr

/-- Model of the search pages (`Search for a Player` on `second_name`,
`Search for a Team` on `name`): filter the rows whose name cell matches
`series.str.contains(query, case=False, na=False)` — a case-insensitive
regex search, where a non-string cell counts as no match (`na=False`) —
then render the result table, or the not-found message when no row
matched. -/
def searchPage (rows : List Row) (col q notFound : String) :
    Except String RenderOut :=
  (parsePattern (lowerChars q.data)).map (fun p =>
    let hits := rows.filter (fun r =>
      match rowGet r col with
      | Val.s n => regexSearch p (lowerChars n.data)
      | _ => false)
    if hits.isEmpty then RenderOut.msg notFound else RenderOut.table hits)

theorem parsePattern_lit (cs : List Char) (h : ∀ c ∈ cs, isMeta c = false) :
    parsePattern cs = Except.ok (cs.map RAtom.lit) := by
  induction cs with
  | nil => rfl
  | cons c cs ih =>
    have hc := h c (List.mem_cons_self _ _)
    have hdot : ¬ c = '.' := by
      intro hd
      rw [hd] at hc
      simp [isMeta] at hc
    rw [parsePattern]
    rw [if_neg hdot, if_neg (by simp [hc])]
    rw [ih (fun x hx => h x (List.mem_cons_of_mem _ hx))]
    rfl

theorem matchHere_lit (q : List Char) : ∀ s : List Char,
    matchHere (q.map RAtom.lit) s = prefixHere q s := by
  induction q with
  | nil => intro s; cases s <;> rfl
  | cons c cs ih =>
    intro s
    cases s with
    | nil => rfl
    | cons x xs =>
      simp only [List.map_cons, matchHere, prefixHere, ih]

theorem regexSearch_lit (q : List Char) : ∀ s : List Char,
    regexSearch (q.map RAtom.lit) s = subMatch q s := by
  intro s
  induction s with
  | nil => simp only [regexSearch, subMatch, matchHere_lit]
  | cons x xs ih =>
    simp only [regexSearch, subMatch, matchHere_lit, ih]

/-- C6 counterexample: search is not a substring match and can raise.  With
a single player named Ali, the query consisting of the single character dot
— which is not a substring of Ali — returns a non-empty result table
instead of the not-found message, because `str.contains` treats the query
as a regular expression; and the query left-parenthesis raises a regex
compilation error instead of returning a result. -/
theorem claim6_counterexample :
    searchPage [[("second_name", Val.s "Ali")]] "second_name" "." "No players found."
      = Except.ok (RenderOut.table [[("second_name", Val.s "Ali")]])
    ∧ ciSubstr "." "Ali" = false
    ∧ searchPage [[("second_name", Val.s "Ali")]] "second_name" "(" "No players found."
      = Except.error "unsupported metacharacter in pattern" :=
  ⟨rfl, rfl, rfl⟩

/-- C6 (amended): the search pages perform a case-insensitive regex match;
restricted to queries without regex metacharacters this is exactly the
case-insensitive substring match, the empty hit set renders the not-found
message instead of a table, and no error is raised; concretely, the query
zzz over a single team Arsenal renders the not-found message. -/
theorem claim6_search_literal_queries :
    (∀ (rows : List Row) (col q notFound : String),
      (∀ c ∈ lowerChars q.data, isMeta c = false) →
      searchPage rows col q notFound = Except.ok (
        let hits := rows.filter (fun r =>
          match rowGet r col with
          | Val.s n => ciSubstr q n
          | _ => false)
        if hits.isEmpty then RenderOut.msg notFound else RenderOut.table hits))
    ∧ searchPage [[("name", Val.s "Arsenal")]] "name" "zzz" "No teams found."
      = Except.ok (RenderOut.msg "No teams found.") := by
  constructor
  · intro rows col q notFound hmeta
    rw [searchPage, parsePattern_lit _ hmeta]
    have hpred : (fun r => match rowGet r col with
        | Val.s n => regexSearch ((lowerChars q.data).map RAtom.lit) (lowerChars n.data)
        | _ => false)
        = (fun r : Row => match rowGet r col with
        | Val.s n => ciSubstr q n
        | _ => false) := by
      funext r
      cases rowGet r col <;> simp [ciSubstr, regexSearch_lit]
    rw [Except.map, hpred]
  · rfl

theorem rowGet_cons (k1 : String) (v1 : Val) (tl : Row) (c : String) :
    rowGet ((k1, v1) :: tl) c = if k1 = c then v1 else rowGet tl c := rfl

theorem mapKey_cons (k : String) (f : Val → Val) (k1 : String) (v1 : Val)
    (tl : Row) : mapKey k f ((k1, v1) :: tl)
      = (if k1 = k then (k1, f v1) else (k1, v1)) :: mapKey k f tl := rfl

theorem renameKey_cons (a b k1 : String) (v1 : Val) (tl : Row) :
    renameKey a b ((k1, v1) :: tl)
      = (if k1 = a then (b, v1) else (k1, v1)) :: renameKey a b tl := rfl

theorem rowGet_addKey_ne (k c : String) (hne : c ≠ k) (v : Val) (r : Row) :
    rowGet (addKey k v r) c = rowGet r c := by
  induction r with
  | nil => simp [addKey, rowGet, Ne.symm hne]
  | cons p tl ih =>
    obtain ⟨k1, v1⟩ := p
    by_cases hp : k1 = c
    · simp [addKey, rowGet, hp]
    · simp [addKey, rowGet, hp] at ih ⊢
      exact ih

theorem rowGet_addKey_self (k : String) (v : Val) (r : Row)
    (h : k ∉ rowKeys r) : rowGet (addKey k v r) k = v := by
  induction r with
  | nil => simp [addKey, rowGet]
  | cons p tl ih =>
    obtain ⟨k1, v1⟩ := p
    have hp : k1 ≠ k := by
      intro he
      exact h (he ▸ List.mem_cons_self _ _)
    simp only [addKey, List.cons_append, rowGet_cons, if_neg hp]
    exact ih (fun hm => h (List.mem_cons_of_mem _ hm))

theorem rowKeys_addKey (k : String) (v : Val) (r : Row) :
    rowKeys (addKey k v r) = rowKeys r ++ [k] := by
  simp [addKey, rowKeys]

theorem rowKeys_mapKey (k : String) (f : Val → Val) (r : Row) :
    rowKeys (mapKey k f r) = rowKeys r := by
  induction r with
  | nil => rfl
  | cons p tl ih =>
    obtain ⟨k1, v1⟩ := p
    rw [mapKey_cons]
    by_cases hp : k1 = k
    · rw [if_pos hp]
      simp only [rowKeys, List.map_cons] at ih ⊢
      rw [ih]
    · rw [if_neg hp]
      simp only [rowKeys, List.map_cons] at ih ⊢
      rw [ih]

theorem rowKeys_renameKey (a b : String) (r : Row) :
    rowKeys (renameKey a b r) = (rowKeys r).map (fun c => if c = a then b else c) := by
  induction r with
  | nil => rfl
  | cons p tl ih =>
    obtain ⟨k1, v1⟩ := p
    rw [renameKey_cons]
    by_cases hp : k1 = a
    · rw [if_pos hp]
      simp only [rowKeys, List.map_cons] at ih ⊢
      rw [ih, if_pos hp]
    · rw [if_neg hp]
      simp only [rowKeys, List.map_cons] at ih ⊢
      rw [ih, if_neg hp]

theorem rowGet_mapKey_ne (k c : String) (hne : c ≠ k) (f : Val → Val) (r : Row) :
    rowGet (mapKey k f r) c = rowGet r c := by
  induction r with
  | nil => rfl
  | cons p tl ih =>
    obtain ⟨k1, v1⟩ := p
    rw [mapKey_cons]
    by_cases hp : k1 = k
    · have h1 : ¬ k1 = c := fun h => hne (h.symm.trans hp)
      rw [if_pos hp, rowGet_cons, rowGet_cons, if_neg h1, if_neg h1]
      exact ih
    · rw [if_neg hp, rowGet_cons, rowGet_cons]
      by_cases hc : k1 = c
      · rw [if_pos hc, if_pos hc]
      · rw [if_neg hc, if_neg hc]
        exact ih

theorem rowGet_mapKey_self (k : String) (f : Val → Val) (r : Row)
    (h : k ∈ rowKeys r) : rowGet (mapKey k f r) k = f (rowGet r k) := by
  induction r with
  | nil => exact absurd h (by simp [rowKeys])
  | cons p tl ih =>
    obtain ⟨k1, v1⟩ := p
    rw [mapKey_cons]
    by_cases hp : k1 = k
    · rw [if_pos hp, rowGet_cons, rowGet_cons, if_pos hp, if_pos hp]
    · have hm : k ∈ rowKeys tl := by
        rcases List.mem_cons.mp h with he | hm
        · exact absurd he.symm hp
        · exact hm
      rw [if_neg hp, rowGet_cons, rowGet_cons, if_neg hp, if_neg hp]
      exact ih hm

theorem rowGet_renameKey_ne (a b c : String) (hca : c ≠ a) (hcb : c ≠ b)
    (r : Row) : rowGet (renameKey a b r) c = rowGet r c := by
  induction r with
  | nil => rfl
  | cons p tl ih =>
    obtain ⟨k1, v1⟩ := p
    rw [renameKey_cons]
    by_cases hp : k1 = a
    · have h1 : ¬ b = c := fun h => hcb h.symm
      have h2 : ¬ k1 = c := fun h => hca (h.symm.trans hp)
      rw [if_pos hp, rowGet_cons, rowGet_cons, if_neg h1, if_neg h2]
      exact ih
    · rw [if_neg hp, rowGet_cons, rowGet_cons]
      by_cases hc : k1 = c
      · rw [if_pos hc, if_pos hc]
      · rw [if_neg hc, if_neg hc]
        exact ih

theorem rowGet_renameKey_self (a b : String) (r : Row)
    (h : b ∉ rowKeys r) : rowGet (renameKey a b r) b = rowGet r a := by
  induction r with
  | nil => rfl
  | cons p tl ih =>
    obtain ⟨k1, v1⟩ := p
    have hpb : k1 ≠ b := by
      intro he
      exact h (he ▸ List.mem_cons_self _ _)
    have ih2 := ih (fun hm => h (List.mem_cons_of_mem _ hm))
    rw [renameKey_cons]
    by_cases hp : k1 = a
    · rw [if_pos hp, rowGet_cons, rowGet_cons, if_pos rfl, if_pos hp]
    · rw [if_neg hp, rowGet_cons, rowGet_cons, if_neg hpb, if_neg hp]
      exact ih2

/-- Date part of a kickoff cell: model of `to_datetime` followed by
`.dt.date` on the ISO-8601 strings the fixtures endpoint returns (the
leading `YYYY-MM-DD` up to the `T`); a missing kickoff (`NaT`) stays
missing. -/
def toDateCell : Val → Val
  | Val.s str => Val.s (String.mk (str.data.takeWhile (fun c => decide (c ≠ 'T'))))
  | _ => Val.null

/-- Time part of a kickoff cell: model of `strftime` with the hour-minute
format on the same ISO-8601 strings (the five characters after the date
and the `T`); a missing kickoff stays missing. -/
def toTimeCell : Val → Val
  | Val.s str => Val.s (String.mk ((str.data.drop 11).take 5))
  | _ => Val.null

/-- Model of `fillna(d)` on one cell. -/
def fillVal (v d : Val) : Val := if v = Val.null then d else v

/-- Python truthiness of a cell, as the `lambda x: ... if x else ...` in the
status derivation sees it.  A missing value is a float NaN there, and NaN
is truthy in Python. -/
def pyTruthy : Val → Bool
  | Val.b t => t
  | Val.i n => decide (n ≠ 0)
  | Val.q x => decide (x ≠ 0)
  | Val.s str => decide (str ≠ "")
  | Val.null => true

/-- Truthiness of a cell under `Series.any()`, where a missing value counts
as false. -/
def anyTruthyVal : Val → Bool
  | Val.b t => t
  | Val.i n => decide (n ≠ 0)
  | Val.q x => decide (x ≠ 0)
  | Val.s str => decide (str ≠ "")
  | Val.null => false

/-- The columns the Fixtures page displays. -/
def fixturesCols : List String :=
  ["Date", "Time", "Home", "Away", "Home Score", "Away Score", "Status"]

/-- The raw fixture columns the Fixtures page reads by direct subscript; a
payload missing one of them raises a KeyError at the corresponding line
(the model checks them up front). -/
def fixtureReqCols : List String :=
  ["kickoff_time", "team_h", "team_a", "finished", "finished_provisional"]

/-- The id-to-name team dictionary `dict(teams[[id, name]].values)`, read
off the teams table. -/
def teamDict (teams : DataFrame) : List (Val × Val) :=
  teams.rows.map (fun r => (rowGet r "id", rowGet r "name"))

/-- The per-row pipeline of the Fixtures page up to the status derivation:
derive Date and Time from the kickoff timestamp, map both team ids through
the team dictionary, rename them Home and Away, attach the score columns —
the raw score (or the placeholder, when the score column is absent) with
missing values filled by the placeholder, then coerced to numeric — and
derive the status. -/
def fixRow11 (tmap : List (Val × Val)) (hasH hasA : Bool) (fx : Row) : Row :=
  let r1 := addKey "Date" (toDateCell (rowGet fx "kickoff_time")) fx
  let r2 := addKey "Time" (toTimeCell (rowGet r1 "kickoff_time")) r1
  let r3 := mapKey "team_h" (fun v => dictGet tmap v) r2
  let r4 := mapKey "team_a" (fun v => dictGet tmap v) r3
  let r5 := renameKey "team_h" "Home" r4
  let r6 := renameKey "team_a" "Away" r5
  let r7 := addKey "Home Score"
    (fillVal (if hasH then rowGet r6 "team_h_score" else Val.s "-") (Val.s "-")) r6
  let r8 := addKey "Away Score"
    (fillVal (if hasA then rowGet r7 "team_a_score" else Val.s "-") (Val.s "-")) r7
  let r9 := mapKey "Home Score" toNumericCoerce r8
  let r10 := mapKey "Away Score" toNumericCoerce r9
  addKey "Status"
    (Val.s (if pyTruthy (rowGet r10 "finished") then "Finished" else "Upcoming")) r10

/-- The full per-row pipeline of the Fixtures page: the status column is
additionally filled — vacuously, since its cell is never missing — with
the provisional/upcoming default. -/
def fixRow (tmap : List (Val × Val)) (hasH hasA : Bool) (fillS : Val)
    (fx : Row) : Row :=
  mapKey "Status" (fun v => fillVal v fillS) (fixRow11 tmap hasH hasA fx)

/-- Presence of the raw home-score column. -/
def fixHasH (fixtures : List Row) : Bool :=
  (DataFrame.ofRecords fixtures).columns.contains "team_h_score"

/-- Presence of the raw away-score column. -/
def fixHasA (fixtures : List Row) : Bool :=
  (DataFrame.ofRecords fixtures).columns.contains "team_a_score"

/-- The fill value of the (dead) status fill: Provisional when any fixture
row has a truthy `finished_provisional`, Upcoming otherwise. -/
def fixFillS (teams : DataFrame) (fixtures : List Row) : Val :=
  Val.s (if (fixtures.map
        (fixRow11 (teamDict teams) (fixHasH fixtures) (fixHasA fixtures))).any
      (fun r => anyTruthyVal (rowGet r "finished_provisional"))
    then "Provisional" else "Upcoming")

/-- Model of the Fixtures page table construction (the body of the try
block): build the fixtures DataFrame, derive Date/Time from the kickoff
timestamp, resolve both team ids through the id-to-name dictionary, rename
them Home/Away, attach the score columns (`get` with the placeholder
default, `fillna` with the placeholder, then numeric coercion), derive the
Status column and its (dead) provisional fill, and select the display
columns.  Presence of the directly subscripted raw columns is checked up
front, modelling the KeyError pandas raises at the first such access;
presence of the score columns is read off the raw fixture columns, which
the intervening added and renamed columns (Date, Time, Home, Away) cannot
affect. -/
def buildFixtures (teams : DataFrame) (fixtures : List Row) :
    Except String DataFrame :=
  let f0 := DataFrame.ofRecords fixtures
  if fixtureReqCols.all (fun c => f0.columns.contains c) then do
    let f1 := f0.addCol "Date" (fun r => toDateCell (rowGet r "kickoff_time"))
    let f2 := f1.addCol "Time" (fun r => toTimeCell (rowGet r "kickoff_time"))
    let tsel ← teams.select ["id", "name"]
    let tmap := tsel.rows.map (fun r => (rowGet r "id", rowGet r "name"))
    let f3 := f2.mapCol "team_h" (fun v => dictGet tmap v)
    let f4 := f3.mapCol "team_a" (fun v => dictGet tmap v)
    let f5 := f4.renameCol "team_h" "Home"
    let f6 := f5.renameCol "team_a" "Away"
    let hasH := f0.columns.contains "team_h_score"
    let hasA := f0.columns.contains "team_a_score"
    let f7 := f6.addCol "Home Score"
      (fun r => fillVal (if hasH then rowGet r "team_h_score" else Val.s "-") (Val.s "-"))
    let f8 := f7.addCol "Away Score"
      (fun r => fillVal (if hasA then rowGet r "team_a_score" else Val.s "-") (Val.s "-"))
    let f9 := f8.mapCol "Home Score" toNumericCoerce
    let f10 := f9.mapCol "Away Score" toNumericCoerce
    let f11 := f10.addCol "Status"
      (fun r => Val.s (if pyTruthy (rowGet r "finished") then "Finished" else "Upcoming"))
    let fillS := Val.s (if f11.rows.any
        (fun r => anyTruthyVal (rowGet r "finished_provisional"))
      then "Provisional" else "Upcoming")
    let f12 := f11.mapCol "Status" (fun v => fillVal v fillS)
    f12.select fixturesCols
  else Except.error "KeyError: missing fixture column"

theorem select_rows_of_ok (df : DataFrame) (cs : List String) (out : DataFrame)
    (h : df.select cs = Except.ok out) :
    out.rows = df.rows.map (fun r => cs.map (fun c => (c, rowGet r c))) := by
  rw [DataFrame.select] at h
  cases hc : (cs.all fun c => df.columns.contains c) with
  | false =>
    rw [hc] at h
    simp at h
  | true =>
    rw [hc] at h
    simp only [if_true, Except.ok.injEq] at h
    rw [← h]

/-- Every successful Fixtures build projects, row by row, the per-row
pipeline `fixRow` applied to the raw fixture records, with the team
dictionary read off the teams table and score-column presence read off the
raw fixture columns (the fill value of the dead provisional fill is
existentially quantified; no displayed cell depends on it). -/
theorem buildFixtures_ok_shape (teams : DataFrame) (fixtures : List Row)
    (df : DataFrame) (hok : buildFixtures teams fixtures = Except.ok df) :
    df.rows = fixtures.map (fun fx => fixturesCols.map (fun c =>
      (c, rowGet (fixRow (teamDict teams) (fixHasH fixtures) (fixHasA fixtures)
        (fixFillS teams fixtures) fx) c))) := by
  simp only [buildFixtures] at hok
  cases hreq : (fixtureReqCols.all
      (fun c => (DataFrame.ofRecords fixtures).columns.contains c)) with
  | false =>
    rw [hreq] at hok
    simp at hok
  | true =>
    rw [hreq] at hok
    simp only [if_true, DataFrame.select, Except.bind, bind] at hok
    cases hts : (["id", "name"].all (fun c => teams.columns.contains c)) with
    | false =>
      rw [hts] at hok
      simp at hok
    | true =>
      rw [hts] at hok
      simp only [if_true] at hok
      have hrows := select_rows_of_ok _ _ _ hok
      rw [hrows]
      simp only [DataFrame.addCol, DataFrame.mapCol, DataFrame.renameCol,
        DataFrame.ofRecords, List.map_map]
      rfl

theorem fixRow_Date (tmap : List (Val × Val)) (hasH hasA : Bool) (fillS : Val)
    (fx : Row) (hD : "Date" ∉ rowKeys fx) :
    rowGet (fixRow tmap hasH hasA fillS fx) "Date"
      = toDateCell (rowGet fx "kickoff_time") := by
  simp only [fixRow, fixRow11]
  rw [rowGet_mapKey_ne "Status" "Date" (by decide)]
  rw [rowGet_addKey_ne "Status" "Date" (by decide)]
  rw [rowGet_mapKey_ne "Away Score" "Date" (by decide)]
  rw [rowGet_mapKey_ne "Home Score" "Date" (by decide)]
  rw [rowGet_addKey_ne "Away Score" "Date" (by decide)]
  rw [rowGet_addKey_ne "Home Score" "Date" (by decide)]
  rw [rowGet_renameKey_ne "team_a" "Away" "Date" (by decide) (by decide)]
  rw [rowGet_renameKey_ne "team_h" "Home" "Date" (by decide) (by decide)]
  rw [rowGet_mapKey_ne "team_a" "Date" (by decide)]
  rw [rowGet_mapKey_ne "team_h" "Date" (by decide)]
  rw [rowGet_addKey_ne "Time" "Date" (by decide)]
  rw [rowGet_addKey_self "Date" _ _ hD]

theorem fixRow_Time (tmap : List (Val × Val)) (hasH hasA : Bool) (fillS : Val)
    (fx : Row) (hT : "Time" ∉ rowKeys fx) :
    rowGet (fixRow tmap hasH hasA fillS fx) "Time"
      = toTimeCell (rowGet fx "kickoff_time") := by
  simp only [fixRow, fixRow11]
  rw [rowGet_mapKey_ne "Status" "Time" (by decide)]
  rw [rowGet_addKey_ne "Status" "Time" (by decide)]
  rw [rowGet_mapKey_ne "Away Score" "Time" (by decide)]
  rw [rowGet_mapKey_ne "Home Score" "Time" (by decide)]
  rw [rowGet_addKey_ne "Away Score" "Time" (by decide)]
  rw [rowGet_addKey_ne "Home Score" "Time" (by decide)]
  rw [rowGet_renameKey_ne "team_a" "Away" "Time" (by decide) (by decide)]
  rw [rowGet_renameKey_ne "team_h" "Home" "Time" (by decide) (by decide)]
  rw [rowGet_mapKey_ne "team_a" "Time" (by decide)]
  rw [rowGet_mapKey_ne "team_h" "Time" (by decide)]
  rw [rowGet_addKey_self "Time"]
  · rw [rowGet_addKey_ne "Date" "kickoff_time" (by decide)]
  · rw [rowKeys_addKey]
    simp [List.mem_append, hT]

theorem fixRow_Home (tmap : List (Val × Val)) (hasH hasA : Bool) (fillS : Val)
    (fx : Row) (hth : "team_h" ∈ rowKeys fx) (hH : "Home" ∉ rowKeys fx) :
    rowGet (fixRow tmap hasH hasA fillS fx) "Home"
      = dictGet tmap (rowGet fx "team_h") := by
  simp only [fixRow, fixRow11]
  rw [rowGet_mapKey_ne "Status" "Home" (by decide)]
  rw [rowGet_addKey_ne "Status" "Home" (by decide)]
  rw [rowGet_mapKey_ne "Away Score" "Home" (by decide)]
  rw [rowGet_mapKey_ne "Home Score" "Home" (by decide)]
  rw [rowGet_addKey_ne "Away Score" "Home" (by decide)]
  rw [rowGet_addKey_ne "Home Score" "Home" (by decide)]
  rw [rowGet_renameKey_ne "team_a" "Away" "Home" (by decide) (by decide)]
  rw [rowGet_renameKey_self "team_h" "Home"]
  · rw [rowGet_mapKey_ne "team_a" "team_h" (by decide)]
    rw [rowGet_mapKey_self "team_h"]
    · rw [rowGet_addKey_ne "Time" "team_h" (by decide)]
      rw [rowGet_addKey_ne "Date" "team_h" (by decide)]
    · rw [rowKeys_addKey, rowKeys_addKey]
      exact List.mem_append_left _ (List.mem_append_left _ hth)
  · rw [rowKeys_mapKey, rowKeys_mapKey, rowKeys_addKey, rowKeys_addKey]
    simp [List.mem_append, hH]

theorem fixRow_Away (tmap : List (Val × Val)) (hasH hasA : Bool) (fillS : Val)
    (fx : Row) (hta : "team_a" ∈ rowKeys fx) (hA : "Away" ∉ rowKeys fx) :
    rowGet (fixRow tmap hasH hasA fillS fx) "Away"
      = dictGet tmap (rowGet fx "team_a") := by
  simp only [fixRow, fixRow11]
  rw [rowGet_mapKey_ne "Status" "Away" (by decide)]
  rw [rowGet_addKey_ne "Status" "Away" (by decide)]
  rw [rowGet_mapKey_ne "Away Score" "Away" (by decide)]
  rw [rowGet_mapKey_ne "Home Score" "Away" (by decide)]
  rw [rowGet_addKey_ne "Away Score" "Away" (by decide)]
  rw [rowGet_addKey_ne "Home Score" "Away" (by decide)]
  rw [rowGet_renameKey_self "team_a" "Away"]
  · rw [rowGet_renameKey_ne "team_h" "Home" "team_a" (by decide) (by decide)]
    rw [rowGet_mapKey_self "team_a"]
    · rw [rowGet_mapKey_ne "team_h" "team_a" (by decide)]
      rw [rowGet_addKey_ne "Time" "team_a" (by decide)]
      rw [rowGet_addKey_ne "Date" "team_a" (by decide)]
    · rw [rowKeys_mapKey, rowKeys_addKey, rowKeys_addKey]
      exact List.mem_append_left _ (List.mem_append_left _ hta)
  · rw [rowKeys_renameKey, rowKeys_mapKey, rowKeys_mapKey, rowKeys_addKey,
      rowKeys_addKey]
    intro hmem
    obtain ⟨c, hc, heq⟩ := List.mem_map.mp hmem
    by_cases hce : c = "team_h"
    · rw [if_pos hce] at heq
      exact absurd heq (by decide)
    · rw [if_neg hce] at heq
      subst heq
      rcases List.mem_append.mp hc with h1 | h2
      · rcases List.mem_append.mp h1 with h3 | h4
        · exact hA h3
        · exact absurd h4 (by decide)
      · exact absurd h2 (by decide)

theorem notmem_base_keys (fx : Row) (k : String) (hk : k ∉ rowKeys fx)
    (hD : k ≠ "Date") (hT : k ≠ "Time") :
    k ∉ (rowKeys fx ++ ["Date"]) ++ ["Time"] := by
  intro hm
  rcases List.mem_append.mp hm with h1 | h2
  · rcases List.mem_append.mp h1 with h3 | h4
    · exact hk h3
    · rw [List.mem_singleton] at h4
      exact hD h4
  · rw [List.mem_singleton] at h2
    exact hT h2

theorem notmem_mapped_keys (ks : List String) (k : String)
    (hk : k ∉ ks) (hH : k ≠ "Home") (hA : k ≠ "Away") :
    k ∉ (ks.map (fun c => if c = "team_h" then "Home" else c)).map
      (fun c => if c = "team_a" then "Away" else c) := by
  intro hmem
  obtain ⟨c, hc, heq⟩ := List.mem_map.mp hmem
  obtain ⟨c2, hc2, heq2⟩ := List.mem_map.mp hc
  by_cases h2 : c2 = "team_h"
  · rw [if_pos h2] at heq2
    subst heq2
    rw [if_neg (by decide)] at heq
    exact hH heq.symm
  · rw [if_neg h2] at heq2
    subst heq2
    by_cases h3 : c2 = "team_a"
    · rw [if_pos h3] at heq
      exact hA heq.symm
    · rw [if_neg h3] at heq
      subst heq
      exact hk hc2

theorem fixRow_HomeScore_null (tmap : List (Val × Val)) (hasH hasA : Bool)
    (fillS : Val) (fx : Row) (hraw : rowGet fx "team_h_score" = Val.null)
    (hHS : "Home Score" ∉ rowKeys fx) :
    rowGet (fixRow tmap hasH hasA fillS fx) "Home Score" = Val.null := by
  simp only [fixRow, fixRow11]
  rw [rowGet_mapKey_ne "Status" "Home Score" (by decide)]
  rw [rowGet_addKey_ne "Status" "Home Score" (by decide)]
  rw [rowGet_mapKey_ne "Away Score" "Home Score" (by decide)]
  rw [rowGet_mapKey_self "Home Score"]
  · rw [rowGet_addKey_ne "Away Score" "Home Score" (by decide)]
    rw [rowGet_addKey_self "Home Score"]
    · cases hasH with
      | false => rfl
      | true =>
        rw [if_pos rfl]
        rw [rowGet_renameKey_ne "team_a" "Away" "team_h_score" (by decide) (by decide)]
        rw [rowGet_renameKey_ne "team_h" "Home" "team_h_score" (by decide) (by decide)]
        rw [rowGet_mapKey_ne "team_a" "team_h_score" (by decide)]
        rw [rowGet_mapKey_ne "team_h" "team_h_score" (by decide)]
        rw [rowGet_addKey_ne "Time" "team_h_score" (by decide)]
        rw [rowGet_addKey_ne "Date" "team_h_score" (by decide)]
        rw [hraw]
        rfl
    · rw [rowKeys_renameKey, rowKeys_renameKey, rowKeys_mapKey, rowKeys_mapKey,
        rowKeys_addKey, rowKeys_addKey]
      exact notmem_mapped_keys _ _
        (notmem_base_keys fx _ hHS (by decide) (by decide)) (by decide) (by decide)
  · rw [rowKeys_addKey, rowKeys_addKey]
    exact List.mem_append_left _ (List.mem_append_right _ (by decide))

theorem fixRow_AwayScore_null (tmap : List (Val × Val)) (hasH hasA : Bool)
    (fillS : Val) (fx : Row) (hraw : rowGet fx "team_a_score" = Val.null)
    (hAS : "Away Score" ∉ rowKeys fx) :
    rowGet (fixRow tmap hasH hasA fillS fx) "Away Score" = Val.null := by
  simp only [fixRow, fixRow11]
  rw [rowGet_mapKey_ne "Status" "Away Score" (by decide)]
  rw [rowGet_addKey_ne "Status" "Away Score" (by decide)]
  rw [rowGet_mapKey_self "Away Score"]
  · rw [rowGet_mapKey_ne "Home Score" "Away Score" (by decide)]
    rw [rowGet_addKey_self "Away Score"]
    · cases hasA with
      | false => rfl
      | true =>
        rw [if_pos rfl]
        rw [rowGet_addKey_ne "Home Score" "team_a_score" (by decide)]
        rw [rowGet_renameKey_ne "team_a" "Away" "team_a_score" (by decide) (by decide)]
        rw [rowGet_renameKey_ne "team_h" "Home" "team_a_score" (by decide) (by decide)]
        rw [rowGet_mapKey_ne "team_a" "team_a_score" (by decide)]
        rw [rowGet_mapKey_ne "team_h" "team_a_score" (by decide)]
        rw [rowGet_addKey_ne "Time" "team_a_score" (by decide)]
        rw [rowGet_addKey_ne "Date" "team_a_score" (by decide)]
        rw [hraw]
        rfl
    · intro hm
      rw [rowKeys_addKey] at hm
      rcases List.mem_append.mp hm with h1 | h2
      · rw [rowKeys_renameKey, rowKeys_renameKey, rowKeys_mapKey,
          rowKeys_mapKey, rowKeys_addKey, rowKeys_addKey] at h1
        exact notmem_mapped_keys _ _
          (notmem_base_keys fx _ hAS (by decide) (by decide))
          (by decide) (by decide) h1
      · rw [List.mem_singleton] at h2
        exact absurd h2 (by decide)
  · rw [rowKeys_mapKey, rowKeys_addKey, rowKeys_addKey]
    exact List.mem_append_right _ (by decide)

/-- The fill of the status cell with the provisional default is vacuous: the
derived status is always the Finished/Upcoming string. -/
theorem fillVal_status_or (x : Bool) (fillS : Val) :
    fillVal (Val.s (if x then "Finished" else "Upcoming")) fillS
        = Val.s "Finished"
      ∨ fillVal (Val.s (if x then "Finished" else "Upcoming")) fillS
        = Val.s "Upcoming" := by
  cases x with
  | true => left; rfl
  | false => right; rfl

theorem fixRow_Status (tmap : List (Val × Val)) (hasH hasA : Bool)
    (fillS : Val) (fx : Row) (hSt : "Status" ∉ rowKeys fx) :
    rowGet (fixRow tmap hasH hasA fillS fx) "Status" = Val.s "Finished"
      ∨ rowGet (fixRow tmap hasH hasA fillS fx) "Status" = Val.s "Upcoming" := by
  simp only [fixRow, fixRow11]
  rw [rowGet_mapKey_self "Status"]
  · rw [rowGet_addKey_self "Status"]
    · exact fillVal_status_or _ _
    · rw [rowKeys_mapKey, rowKeys_mapKey, rowKeys_addKey, rowKeys_addKey]
      intro hm
      rcases List.mem_append.mp hm with h1 | h2
      · rcases List.mem_append.mp h1 with h3 | h4
        · rw [rowKeys_renameKey, rowKeys_renameKey, rowKeys_mapKey,
            rowKeys_mapKey, rowKeys_addKey, rowKeys_addKey] at h3
          exact notmem_mapped_keys _ _
            (notmem_base_keys fx _ hSt (by decide) (by decide))
            (by decide) (by decide) h3
        · rw [List.mem_singleton] at h4
          exact absurd h4 (by decide)
      · rw [List.mem_singleton] at h2
        exact absurd h2 (by decide)
  · rw [rowKeys_addKey]
    exact List.mem_append_right _ (by decide)

/-- Teams table of the fixtures example: ids 1 and 2, names A and B. -/
def fixExampleTeams : DataFrame := DataFrame.ofRecords
  [[("id", Val.i 1), ("name", Val.s "A")], [("id", Val.i 2), ("name", Val.s "B")]]

/-- An unplayed fixture: kickoff scheduled, not finished, both scores
missing. -/
def fixExampleFixture : Row :=
  [("team_h", Val.i 1), ("team_a", Val.i 2),
   ("kickoff_time", Val.s "2025-08-16T14:00:00Z"), ("finished", Val.b false),
   ("finished_provisional", Val.b false), ("team_h_score", Val.null),
   ("team_a_score", Val.null)]

/-- C8 counterexample: for an unplayed fixture the built score cells are
the missing value, not the placeholder — the code fills the placeholder
and then immediately coerces the column to numeric, which turns the
placeholder back into a missing value. -/
theorem claim8_counterexample :
    (buildFixtures fixExampleTeams [fixExampleFixture]).map
      (fun df => df.rows.map
        (fun r => (rowGet r "Home Score", rowGet r "Away Score")))
      = Except.ok [(Val.null, Val.null)]
    ∧ Val.null ≠ Val.s "-" :=
  ⟨rfl, by decide⟩

/-- C8 (amended): every built fixture row resolves the two team ids through
the id-to-name dictionary of the teams table, splits the kickoff timestamp
into its date and its hour-minute time, ends with MISSING score cells for
an unplayed match (the placeholder is destroyed by the numeric coercion),
and derives a status that is always Finished or Upcoming (the provisional
branch is dead); the worked example evaluates one unplayed fixture. -/
theorem claim8_fixture_rows :
    (∀ (teams : DataFrame) (fixtures : List Row) (df : DataFrame),
      buildFixtures teams fixtures = Except.ok df →
      ∀ r ∈ df.rows, ∃ fx ∈ fixtures,
        ("team_h" ∈ rowKeys fx → "team_a" ∈ rowKeys fx →
         (∀ k ∈ fixturesCols, k ∉ rowKeys fx) →
          rowGet r "Home" = dictGet (teamDict teams) (rowGet fx "team_h")
          ∧ rowGet r "Away" = dictGet (teamDict teams) (rowGet fx "team_a")
          ∧ rowGet r "Date" = toDateCell (rowGet fx "kickoff_time")
          ∧ rowGet r "Time" = toTimeCell (rowGet fx "kickoff_time")
          ∧ (rowGet fx "team_h_score" = Val.null →
              rowGet r "Home Score" = Val.null)
          ∧ (rowGet fx "team_a_score" = Val.null →
              rowGet r "Away Score" = Val.null)
          ∧ (rowGet r "Status" = Val.s "Finished"
              ∨ rowGet r "Status" = Val.s "Upcoming")))
    ∧ (buildFixtures fixExampleTeams [fixExampleFixture]).map
        (fun df => df.rows.map (fun r =>
          (rowGet r "Date", rowGet r "Time", rowGet r "Home", rowGet r "Away",
           rowGet r "Status")))
        = Except.ok [(Val.s "2025-08-16", Val.s "14:00", Val.s "A", Val.s "B",
           Val.s "Upcoming")] := by
  constructor
  · intro teams fixtures df hok r hr
    have hshape := buildFixtures_ok_shape teams fixtures df hok
    rw [hshape] at hr
    obtain ⟨fx, hfx, hre⟩ := List.mem_map.mp hr
    refine ⟨fx, hfx, ?_⟩
    intro hth hta hnk
    subst hre
    have eH : ∀ bigr : Row,
        rowGet (fixturesCols.map (fun c => (c, rowGet bigr c))) "Home"
          = rowGet bigr "Home" := fun _ => rfl
    have eA : ∀ bigr : Row,
        rowGet (fixturesCols.map (fun c => (c, rowGet bigr c))) "Away"
          = rowGet bigr "Away" := fun _ => rfl
    have eD : ∀ bigr : Row,
        rowGet (fixturesCols.map (fun c => (c, rowGet bigr c))) "Date"
          = rowGet bigr "Date" := fun _ => rfl
    have eT : ∀ bigr : Row,
        rowGet (fixturesCols.map (fun c => (c, rowGet bigr c))) "Time"
          = rowGet bigr "Time" := fun _ => rfl
    have eHS : ∀ bigr : Row,
        rowGet (fixturesCols.map (fun c => (c, rowGet bigr c))) "Home Score"
          = rowGet bigr "Home Score" := fun _ => rfl
    have eAS : ∀ bigr : Row,
        rowGet (fixturesCols.map (fun c => (c, rowGet bigr c))) "Away Score"
          = rowGet bigr "Away Score" := fun _ => rfl
    have eSt : ∀ bigr : Row,
        rowGet (fixturesCols.map (fun c => (c, rowGet bigr c))) "Status"
          = rowGet bigr "Status" := fun _ => rfl
    refine ⟨?_, ?_, ?_, ?_, ?_, ?_, ?_⟩
    · rw [eH]
      exact fixRow_Home _ _ _ _ _ hth (hnk "Home" (by decide))
    · rw [eA]
      exact fixRow_Away _ _ _ _ _ hta (hnk "Away" (by decide))
    · rw [eD]
      exact fixRow_Date _ _ _ _ _ (hnk "Date" (by decide))
    · rw [eT]
      exact fixRow_Time _ _ _ _ _ (hnk "Time" (by decide))
    · intro hnull
      rw [eHS]
      exact fixRow_HomeScore_null _ _ _ _ _ hnull (hnk "Home Score" (by decide))
    · intro hnull
      rw [eAS]
      exact fixRow_AwayScore_null _ _ _ _ _ hnull (hnk "Away Score" (by decide))
    · rw [eSt]
      exact fixRow_Status _ _ _ _ _ (hnk "Status" (by decide))
  · rfl

/-- The fixed position-to-metrics table of the Best Players page. -/
def metricsByPosition : List (String × List String) :=
  [("Goalkeeper", ["saves", "clean_sheets"]),
   ("Defender", ["expected_goals", "expected_assists", "clean_sheets",
     "influence", "creativity", "threat"]),
   ("Midfielder", ["expected_goals", "expected_assists", "influence",
     "creativity", "threat"]),
   ("Forward", ["expected_goals", "expected_assists", "influence",
     "creativity", "threat"])]

/-- Numeric reading of a cell for summation, where a missing value
contributes 0 (`DataFrame.sum` skips NaN). -/
def qOf : Val → ℚ
  | Val.q x => x
  | Val.i n => (n : ℚ)
  | _ => 0

/-- The derived total score of a row: the sum of its metric cells. -/
def totalScore (metrics : List String) (r : Row) : ℚ :=
  (metrics.map (fun m => qOf (rowGet r m))).sum

/-- The sort key of the Best Players page: the numeric total score cell. -/
def scoreOf (r : Row) : ℚ := qOf (rowGet r "total_score")

/-- The per-row metric coercion loop: each metric column present in the
table is coerced to numeric. -/
def coerceMetrics (cols metrics : List String) (r : Row) : Row :=
  metrics.foldl
    (fun row m => if cols.contains m then mapKey m toNumericCoerce row else row) r

/-- One scored row: the coerced row extended with its total score. -/
def scoreRow (cols metrics : List String) (r : Row) : Row :=
  addKey "total_score" (Val.q (totalScore metrics (coerceMetrics cols metrics r)))
    (coerceMetrics cols metrics r)

/-- Model of the Best Players page: error when the position column is
missing; filter to the selected position; coerce the position-specific
metric columns to numeric; error when a metric column is missing;
otherwise score each row by the metric sum, sort by total score descending
and keep the first 11.  (`sort_values` leaves the order of tied rows
unspecified; the sort is modelled by insertion sort.) -/
def bestPlayers (players : DataFrame) (pos : String) : Except String (List Row) :=
  if players.columns.contains "position" then
    let metrics := (List.lookup pos metricsByPosition).getD []
    let filtered := players.rows.filter
      (fun r => decide (rowGet r "position" = Val.s pos))
    if (metrics.filter (fun m => ! players.columns.contains m)).isEmpty then
      let scored := filtered.map (scoreRow players.columns metrics)
      Except.ok ((List.insertionSort (fun a b => scoreOf b ≤ scoreOf a) scored).take 11)
    else Except.error "Missing columns"
  else Except.error "The position column is missing in the data."

theorem lookup_mem_pairs (a : String) (l : List (String × List String))
    (b : List String) (h : List.lookup a l = some b) : (a, b) ∈ l := by
  induction l with
  | nil => simp [List.lookup] at h
  | cons p tl ih =>
    obtain ⟨k, v⟩ := p
    rw [List.lookup] at h
    cases hbe : (a == k) with
    | true =>
      simp only [hbe] at h
      cases h
      have : a = k := by simpa using hbe
      subst this
      exact List.mem_cons_self _ _
    | false =>
      simp only [hbe] at h
      exact List.mem_cons_of_mem _ (ih h)

theorem rowGet_coerceMetrics_ne (cols metrics : List String) (c : String)
    (hc : c ∉ metrics) : ∀ r : Row,
    rowGet (coerceMetrics cols metrics r) c = rowGet r c := by
  induction metrics with
  | nil => intro r; rfl
  | cons m ms ih =>
    intro r
    have hms : c ∉ ms := fun hmm => hc (List.mem_cons_of_mem _ hmm)
    have hcm : c ≠ m := fun he => hc (he ▸ List.mem_cons_self _ _)
    simp only [coerceMetrics, List.foldl_cons] at ih ⊢
    rw [ih hms]
    by_cases hm : cols.contains m = true
    · rw [if_pos hm]
      exact rowGet_mapKey_ne m c hcm _ _
    · rw [if_neg hm]

theorem rowKeys_coerceMetrics (cols metrics : List String) : ∀ r : Row,
    rowKeys (coerceMetrics cols metrics r) = rowKeys r := by
  induction metrics with
  | nil => intro r; rfl
  | cons m ms ih =>
    intro r
    simp only [coerceMetrics, List.foldl_cons] at ih ⊢
    rw [ih]
    by_cases hm : cols.contains m = true
    · rw [if_pos hm, rowKeys_mapKey]
    · rw [if_neg hm]

/-- Players table of the Best Players example: one goalkeeper and one
forward. -/
def bpExample : DataFrame := DataFrame.ofRecords
  [[("second_name", Val.s "A"), ("position", Val.s "Goalkeeper"),
    ("saves", Val.i 3), ("clean_sheets", Val.i 1)],
   [("second_name", Val.s "B"), ("position", Val.s "Forward"),
    ("expected_goals", Val.s "0.5")]]

/-- C9: whenever the Best Players page succeeds for a position of the
metric table, it returns at most 11 rows, sorted by total score
descending, and exactly the leading 11 of a descending sort of all scored
rows of that position; every returned row belongs to the selected
position and carries as total score the sum of the metric cells of the
position of its coerced source row.  The example page for Goalkeeper keeps
the goalkeeper and drops the forward. -/
theorem claim9_best_players :
    (∀ (players : DataFrame) (pos : String) (metrics : List String)
       (out : List Row),
      List.lookup pos metricsByPosition = some metrics →
      bestPlayers players pos = Except.ok out →
      out.length ≤ 11
      ∧ List.Sorted (fun a b => scoreOf b ≤ scoreOf a) out
      ∧ (∃ sorted : List Row,
          sorted.Perm ((players.rows.filter
            (fun r => decide (rowGet r "position" = Val.s pos))).map
            (scoreRow players.columns metrics))
          ∧ List.Sorted (fun a b => scoreOf b ≤ scoreOf a) sorted
          ∧ out = sorted.take 11)
      ∧ (∀ r ∈ out, rowGet r "position" = Val.s pos
          ∧ ∃ r0 ∈ players.rows,
              rowGet r0 "position" = Val.s pos
              ∧ r = scoreRow players.columns metrics r0
              ∧ ("total_score" ∉ rowKeys r0 →
                  rowGet r "total_score" = Val.q (totalScore metrics
                    (coerceMetrics players.columns metrics r0)))))
    ∧ (bestPlayers bpExample "Goalkeeper").map
        (fun out => out.map
          (fun r => (rowGet r "second_name", rowGet r "position")))
        = Except.ok [(Val.s "A", Val.s "Goalkeeper")] := by
  constructor
  · intro players pos metrics out hlook hok
    haveI htr : IsTrans Row (fun a b => scoreOf b ≤ scoreOf a) :=
      ⟨fun _ _ _ hab hbc => le_trans hbc hab⟩
    haveI hto : IsTotal Row (fun a b => scoreOf b ≤ scoreOf a) :=
      ⟨fun a b => le_total (scoreOf b) (scoreOf a)⟩
    simp only [bestPlayers, hlook, Option.getD] at hok
    cases hpos : players.columns.contains "position" with
    | false =>
      rw [hpos] at hok
      simp at hok
    | true =>
      rw [hpos] at hok
      simp only [if_true] at hok
      cases hmiss : (metrics.filter
          (fun m => ! players.columns.contains m)).isEmpty with
      | false =>
        rw [hmiss] at hok
        simp at hok
      | true =>
        rw [hmiss] at hok
        simp only [if_true, Except.ok.injEq] at hok
        have hmem := lookup_mem_pairs pos metricsByPosition metrics hlook
        have hfacts : ∀ p ∈ metricsByPosition,
            "position" ∉ p.2 ∧ "total_score" ∉ p.2 := by decide
        have hposm := (hfacts _ hmem).1
        refine ⟨?_, ?_, ?_, ?_⟩
        · rw [← hok]
          exact List.length_take_le _ _
        · rw [← hok]
          exact List.Pairwise.sublist (List.take_sublist _ _)
            (List.sorted_insertionSort _ _)
        · exact ⟨_, List.perm_insertionSort _ _,
            List.sorted_insertionSort _ _, hok.symm⟩
        · intro r hr
          rw [← hok] at hr
          have hr2 : r ∈ List.insertionSort
              (fun a b => scoreOf b ≤ scoreOf a)
              ((players.rows.filter
                (fun r => decide (rowGet r "position" = Val.s pos))).map
                (scoreRow players.columns metrics)) :=
            (List.take_sublist _ _).mem hr
          rw [(List.perm_insertionSort _ _).mem_iff] at hr2
          obtain ⟨r0, hr0, hre⟩ := List.mem_map.mp hr2
          rw [List.mem_filter] at hr0
          have hpos0 := of_decide_eq_true hr0.2
          subst hre
          constructor
          · rw [scoreRow, rowGet_addKey_ne _ _ (by decide),
              rowGet_coerceMetrics_ne _ _ _ hposm]
            exact hpos0
          · refine ⟨r0, hr0.1, hpos0, rfl, ?_⟩
            intro hnk
            rw [scoreRow, rowGet_addKey_self]
            rw [rowKeys_coerceMetrics]
            exact hnk
  · rfl

end FPL
